import Mathlib

/-
Verification of the hexagon-grid animation engine (`src/app/components/HexagonGrid.tsx`).

The per-frame numeric state (opacities, oscillation rates and directions, hover
easing, and the pseudo-random draws of `Math.random()`, which are IEEE doubles and
hence rational) is embedded over `ℚ`.  Geometric quantities that the source derives
from `Math.sqrt(3)`, `Math.sin`, `Math.cos` and `Math.PI` (cell positions, the
hexagon containment test, the wave function) are embedded over `ℝ`.
-/

namespace HexagonGrid

/-- Highlight color tag of a hexagon cell, from the `color` field of the
`Hexagon` interface (`red` or `green`, `null` modelled as `Option`). -/
inductive HexColor
  | red
  | green
  deriving DecidableEq

/-- One grid cell, mirroring the `Hexagon` interface of the source.  World
coordinates are real (they are multiples of `hexSize * Math.sqrt(3)`); all
animation state is rational. -/
structure Hexagon where
  x : ℝ
  y : ℝ
  shouldHover : Bool
  shouldOscillate : Bool
  isStatic : Bool
  opacity : ℚ
  oscillationRate : ℚ
  oscillationDirection : ℚ
  hoverOpacity : ℚ
  hoverTarget : ℚ
  color : Option HexColor

/-- One frame's oscillation update for an `Oscillating` cell
(`animate`, lines 367-379): add `rate * direction * deltaTime * 60` to the
opacity, then clamp to the band `[0.05, 0.4]`, reversing direction at the
bounds.  Returns the new `(opacity, oscillationDirection)`. -/
def oscStep (rate dir dt op : ℚ) : ℚ × ℚ :=
  if 0.4 ≤ op + rate * dir * dt * 60 then (0.4, -1)
  else if op + rate * dir * dt * 60 ≤ 0.05 then (0.05, 1)
  else (op + rate * dir * dt * 60, dir)

/-- `N`-fold iteration of `oscStep` with per-frame delta times `dts`. -/
def oscIter (rate : ℚ) (dts : ℕ → ℚ) : ℕ → ℚ × ℚ → ℚ × ℚ
  | 0, s => s
  | n + 1, s => oscStep rate (oscIter rate dts n s).2 (dts n) (oscIter rate dts n s).1

/-- The per-frame hover ease rate (`animate`, line 392):
`hoverSpeed = hoverDelay * (isHovered ? 0.5 : 1)`. -/
def hoverSpeedOf (hoverDelay : ℚ) (isHovered : Bool) : ℚ :=
  hoverDelay * (if isHovered then 0.5 else 1)

/-- One frame's hover update for a `HoverEnabled` cell (`animate`, lines
391-393): the target is `0.8` while hovered and `0` otherwise, and the current
hover opacity moves toward the target by the fraction
`hoverSpeed * deltaTime * 60`.  Returns the new `(hoverTarget, hoverOpacity)`. -/
def hoverUpdate (hoverDelay dt : ℚ) (isHovered : Bool) (cur : ℚ) : ℚ × ℚ :=
  ((if isHovered then 0.8 else 0),
   cur + ((if isHovered then (0.8 : ℚ) else 0) - cur) * hoverSpeedOf hoverDelay isHovered * dt * 60)

/-- Hover opacity after `n` frames during which the containment test succeeds
on every frame, starting (as at generation time) from `hoverOpacity = 0`. -/
def hoverHeldIter (hoverDelay : ℚ) (dts : ℕ → ℚ) : ℕ → ℚ
  | 0 => 0
  | n + 1 => (hoverUpdate hoverDelay (dts n) true (hoverHeldIter hoverDelay dts n)).2

/-- The oscillation step always lands in the band `[0.05, 0.4]`, whatever the
input state. -/
lemma oscStep_band (rate dir dt op : ℚ) :
    0.05 ≤ (oscStep rate dir dt op).1 ∧ (oscStep rate dir dt op).1 ≤ 0.4 := by
  unfold oscStep
  split_ifs with h1 h2 <;> constructor <;> simp <;> linarith

/-- C1: for an oscillating cell whose opacity lies in `[0.05, 0.4]`, one
oscillation step keeps the opacity in `[0.05, 0.4]`; the direction is set to
`-1` exactly when the new opacity is the upper bound `0.4`, to `+1` exactly
when it is the lower bound `0.05`, and is left unchanged strictly inside the
band; and for every frame count `N` and every sequence of non-negative frame
delta times the opacity after `N` steps is still in `[0.05, 0.4]`. -/
theorem oscillation_band_c1 (rate dir dt op : ℚ)
    (hlo : 0.05 ≤ op) (hhi : op ≤ 0.4) (hdt : 0 ≤ dt)
    (dts : ℕ → ℚ) (hdts : ∀ i, 0 ≤ dts i) (N : ℕ) :
    (0.05 ≤ (oscStep rate dir dt op).1 ∧ (oscStep rate dir dt op).1 ≤ 0.4) ∧
    ((oscStep rate dir dt op).1 = 0.4 → (oscStep rate dir dt op).2 = -1) ∧
    ((oscStep rate dir dt op).1 = 0.05 → (oscStep rate dir dt op).2 = 1) ∧
    (0.05 < (oscStep rate dir dt op).1 → (oscStep rate dir dt op).1 < 0.4 →
      (oscStep rate dir dt op).2 = dir) ∧
    (0.05 ≤ (oscIter rate dts N (op, dir)).1 ∧ (oscIter rate dts N (op, dir)).1 ≤ 0.4) := by
  refine ⟨oscStep_band rate dir dt op, ?_, ?_, ?_, ?_⟩
  · unfold oscStep
    split_ifs with h1 h2 <;> intro h <;> simp_all <;> linarith
  · unfold oscStep
    split_ifs with h1 h2 <;> intro h <;> simp_all <;> linarith
  · unfold oscStep
    split_ifs with h1 h2 <;> intro h h' <;> simp_all <;> linarith
  · induction N with
    | zero => exact ⟨hlo, hhi⟩
    | succ n ih =>
        exact oscStep_band rate (oscIter rate dts n (op, dir)).2 (dts n)
          (oscIter rate dts n (op, dir)).1

/-- Concrete instance of `oscillation_band_c1` at rate `0.001`, direction `1`,
delta time `1/60`, initial opacity `0.05`, after `2` frames. -/
theorem oscillation_band_c1_witness :
    (0.05 ≤ (oscStep 0.001 1 (1/60) 0.05).1 ∧ (oscStep 0.001 1 (1/60) 0.05).1 ≤ 0.4) ∧
    ((oscStep 0.001 1 (1/60) 0.05).1 = 0.4 → (oscStep 0.001 1 (1/60) 0.05).2 = -1) ∧
    ((oscStep 0.001 1 (1/60) 0.05).1 = 0.05 → (oscStep 0.001 1 (1/60) 0.05).2 = 1) ∧
    (0.05 < (oscStep 0.001 1 (1/60) 0.05).1 → (oscStep 0.001 1 (1/60) 0.05).1 < 0.4 →
      (oscStep 0.001 1 (1/60) 0.05).2 = 1) ∧
    (0.05 ≤ (oscIter 0.001 (fun _ => 1/60) 2 (0.05, 1)).1 ∧
      (oscIter 0.001 (fun _ => 1/60) 2 (0.05, 1)).1 ≤ 0.4) :=
  oscillation_band_c1 0.001 1 (1/60) 0.05 (by norm_num) (by norm_num) (by norm_num)
    (fun _ => 1/60) (fun _ => by norm_num) 2

/-- The ease rate while hovered is `hoverDelay * 0.5`. -/
lemma hoverSpeedOf_true (d : ℚ) : hoverSpeedOf d true = d * 0.5 := by
  simp [hoverSpeedOf]

/-- The ease rate while not hovered is `hoverDelay` itself. -/
lemma hoverSpeedOf_false (d : ℚ) : hoverSpeedOf d false = d := by
  simp [hoverSpeedOf]

/-- The hover update while hovered, written out. -/
lemma hoverUpdate_true (d dt cur : ℚ) :
    hoverUpdate d dt true cur = (0.8, cur + (0.8 - cur) * (d * 0.5) * dt * 60) := by
  simp [hoverUpdate, hoverSpeedOf]

/-- C3 counterexample: at the default `hoverDelay = 0.3`, the per-frame ease
rate while the pointer is inside the cell is NOT strictly greater than the
rate while it is outside (it is strictly smaller). -/
theorem hover_speed_c3_counterexample :
    ¬ (hoverSpeedOf 0.3 false < hoverSpeedOf 0.3 true) := by
  rw [hoverSpeedOf_true, hoverSpeedOf_false]
  norm_num

/-- C3 (amended): for every positive `hoverDelay`, the per-frame ease rate when
the pointer is inside the cell is strictly SMALLER than when it is outside —
exactly half of it — so entry takes roughly twice the frames leaving does. -/
theorem hover_speed_c3 (d : ℚ) (hd : 0 < d) :
    hoverSpeedOf d true < hoverSpeedOf d false ∧
    hoverSpeedOf d true = hoverSpeedOf d false * (1/2) := by
  rw [hoverSpeedOf_true, hoverSpeedOf_false]
  constructor
  · linarith
  · ring

/-- Concrete instance of `hover_speed_c3` at the default `hoverDelay = 0.3`. -/
theorem hover_speed_c3_witness :
    hoverSpeedOf 0.3 true < hoverSpeedOf 0.3 false ∧
    hoverSpeedOf 0.3 true = hoverSpeedOf 0.3 false * (1/2) :=
  hover_speed_c3 0.3 (by norm_num)

/-- C4 counterexample: at the default `hoverDelay = 0.3`, with the pointer held
inside the cell, a single frame with the positive delta time `dt = 1` second
takes the hover opacity from `0` to `7.2`, exceeding the high hover value
`0.8` — so the claimed bound does not hold for every sequence of positive
frame delta times. -/
theorem hover_held_c4_counterexample :
    0.8 < hoverHeldIter 0.3 (fun _ => 1) 1 := by
  show (0.8 : ℚ) < (hoverUpdate 0.3 1 true (hoverHeldIter 0.3 (fun _ => 1) 0)).2
  rw [show hoverHeldIter 0.3 (fun _ => 1) 0 = 0 from rfl, hoverUpdate_true]
  norm_num

/-- C4 (amended): with the pointer held inside a `HoverEnabled` cell on every
frame, starting from hover opacity `0`, and with non-negative `hoverDelay` and
frame delta times small enough that the per-frame ease fraction
`hoverSpeed * dt * 60` is at most `1` (at the default `hoverDelay = 0.3` this
means `dt ≤ 1/9` second, i.e. at least 9 frames per second), the hover opacity
sequence is monotonically non-decreasing, stays in `[0, 0.8]` (never exceeds
`0.8`), and its gap to `0.8` contracts by the factor
`1 - hoverSpeed * dt * 60` every frame. -/
theorem hover_held_c4 (d : ℚ) (dts : ℕ → ℚ) (hd : 0 ≤ d)
    (hdts : ∀ i, 0 ≤ dts i) (hk : ∀ i, hoverSpeedOf d true * dts i * 60 ≤ 1) (n : ℕ) :
    (0 ≤ hoverHeldIter d dts n ∧ hoverHeldIter d dts n ≤ 0.8) ∧
    hoverHeldIter d dts n ≤ hoverHeldIter d dts (n + 1) ∧
    0.8 - hoverHeldIter d dts (n + 1) =
      (0.8 - hoverHeldIter d dts n) * (1 - hoverSpeedOf d true * dts n * 60) := by
  have hknn : ∀ i, 0 ≤ hoverSpeedOf d true * dts i * 60 := by
    intro i
    rw [hoverSpeedOf_true]
    nlinarith [hdts i]
  have hkt : ∀ i, hoverSpeedOf d true * dts i * 60 = d * 0.5 * dts i * 60 := by
    intro i
    rw [hoverSpeedOf_true]
  have band : ∀ m, 0 ≤ hoverHeldIter d dts m ∧ hoverHeldIter d dts m ≤ 0.8 := by
    intro m
    induction m with
    | zero =>
        constructor <;> norm_num [hoverHeldIter]
    | succ j ih =>
        have hj := hk j
        have hj0 := hknn j
        rw [hkt j] at hj hj0
        simp only [hoverHeldIter, hoverUpdate_true]
        constructor
        · nlinarith [ih.1, ih.2]
        · nlinarith [ih.1, ih.2]
  refine ⟨band n, ?_, ?_⟩
  · have hn := hk n
    have hn0 := hknn n
    rw [hkt n] at hn hn0
    simp only [hoverHeldIter, hoverUpdate_true]
    nlinarith [(band n).1, (band n).2]
  · simp only [hoverHeldIter, hoverUpdate_true, hoverSpeedOf_true]
    ring

/-- Concrete instance of `hover_held_c4` at the default `hoverDelay = 0.3`,
60 frames per second, after one frame. -/
theorem hover_held_c4_witness :
    (0 ≤ hoverHeldIter 0.3 (fun _ => 1/60) 1 ∧ hoverHeldIter 0.3 (fun _ => 1/60) 1 ≤ 0.8) ∧
    hoverHeldIter 0.3 (fun _ => 1/60) 1 ≤ hoverHeldIter 0.3 (fun _ => 1/60) 2 ∧
    0.8 - hoverHeldIter 0.3 (fun _ => 1/60) 2 =
      (0.8 - hoverHeldIter 0.3 (fun _ => 1/60) 1) *
        (1 - hoverSpeedOf 0.3 true * (1/60) * 60) :=
  hover_held_c4 0.3 (fun _ => 1/60) (by norm_num) (fun _ => by norm_num)
    (fun _ => by norm_num [hoverSpeedOf]) 1

/-- Width of one hexagon cell: `hexSize * Math.sqrt(3)`. -/
noncomputable def hexWidth (s : ℝ) : ℝ := s * Real.sqrt 3

/-- Height of one hexagon cell: `hexSize * 2`. -/
noncomputable def hexHeight (s : ℝ) : ℝ := s * 2

/-- Vertical spacing between rows: `hexHeight * 0.75`. -/
noncomputable def verticalSpacing (s : ℝ) : ℝ := hexHeight s * 0.75

open Classical in
/-- The approximate point-in-hexagon containment test (`isPointInHexagon`,
lines 218-231): reject when `|dx| > size * sqrt(3) / 2` or `|dy| > size`,
otherwise accept iff `|dy| <= size * (1 - dx / (size * sqrt(3)))`. -/
noncomputable def isPointInHexagon (px py cx cy size : ℝ) : Bool :=
  if |px - cx| > size * Real.sqrt 3 / 2 ∨ |py - cy| > size then false
  else decide (|py - cy| ≤ size * (1 - |px - cx| / (size * Real.sqrt 3)))

/-- The raw wave value at time `t` and position `(px, py)`
(`drawHexagon` lines 162-164 and `animate` lines 360-361):
`(sin(t + x * 0.01 + y * 0.01) + 1) / 2`. -/
noncomputable def rawWave (t px py : ℝ) : ℝ :=
  (Real.sin (t + px * 0.01 + py * 0.01) + 1) / 2

/-- The sharpened wave value: `rawWave ^ 4` (lines 165 and 362). -/
noncomputable def wave (t px py : ℝ) : ℝ := rawWave t px py ^ 4

lemma sqrt3_pos : 0 < Real.sqrt 3 := Real.sqrt_pos.mpr (by norm_num)

lemma sqrt3_lt : Real.sqrt 3 < 1.8 := by
  rw [show (1.8 : ℝ) = Real.sqrt (1.8 ^ 2) from (Real.sqrt_sq (by norm_num)).symm]
  exact Real.sqrt_lt_sqrt (by norm_num) (by norm_num)

lemma lt_sqrt3 : 1.7 < Real.sqrt 3 := by
  rw [show (1.7 : ℝ) = Real.sqrt (1.7 ^ 2) from (Real.sqrt_sq (by norm_num)).symm]
  exact Real.sqrt_lt_sqrt (by norm_num) (by norm_num)

lemma hexWidth_pos (s : ℝ) (hs : 0 < s) : 0 < hexWidth s :=
  mul_pos hs sqrt3_pos

/-- C7: the containment test contains the center for every positive size;
rejects every point at vertical distance more than `size` from the center
(same x coordinate); and is exactly the bounding-diamond test — reject when
`|dx| > size * sqrt(3) / 2` or `|dy| > size`, otherwise accept iff
`|dy| <= size * (1 - |dx| / (size * sqrt(3)))`. -/
theorem point_in_hexagon_c7 :
    (∀ cx cy s : ℝ, 0 < s → isPointInHexagon cx cy cx cy s = true) ∧
    (∀ px py cx cy s : ℝ, 0 < s → px = cx → s < |py - cy| →
      isPointInHexagon px py cx cy s = false) ∧
    (∀ px py cx cy s : ℝ, isPointInHexagon px py cx cy s = true ↔
      (¬(|px - cx| > s * Real.sqrt 3 / 2 ∨ |py - cy| > s) ∧
        |py - cy| ≤ s * (1 - |px - cx| / (s * Real.sqrt 3)))) := by
  have key : ∀ px py cx cy s : ℝ, isPointInHexagon px py cx cy s = true ↔
      (¬(|px - cx| > s * Real.sqrt 3 / 2 ∨ |py - cy| > s) ∧
        |py - cy| ≤ s * (1 - |px - cx| / (s * Real.sqrt 3))) := by
    intro px py cx cy s
    unfold isPointInHexagon
    by_cases h : |px - cx| > s * Real.sqrt 3 / 2 ∨ |py - cy| > s
    · rw [if_pos h]
      simp [h]
    · rw [if_neg h]
      simp [h]
  refine ⟨?_, ?_, key⟩
  · intro cx cy s hs
    rw [key]
    simp only [sub_self, abs_zero]
    refine ⟨?_, ?_⟩
    · rw [not_or]
      constructor
      · exact not_lt.mpr (by positivity)
      · exact not_lt.mpr (le_of_lt hs)
    · rw [zero_div, sub_zero, mul_one]
      exact le_of_lt hs
  · intro px py cx cy s hs hx hy
    unfold isPointInHexagon
    rw [if_pos (Or.inr hy)]

/-- Concrete instance of `point_in_hexagon_c7`: the center of a cell of the
default size `30` is contained. -/
theorem point_in_hexagon_c7_witness : isPointInHexagon 0 0 0 0 30 = true :=
  point_in_hexagon_c7.1 0 0 30 (by norm_num)

/-- C8: the wave function is periodic in time with period `2 * pi` for every
fixed position, and its value always lies in `[0, 1]`. -/
theorem wave_periodic_c8 (t px py : ℝ) :
    wave (t + 2 * Real.pi) px py = wave t px py ∧
    0 ≤ wave t px py ∧ wave t px py ≤ 1 := by
  refine ⟨?_, ?_, ?_⟩
  · unfold wave rawWave
    rw [show t + 2 * Real.pi + px * 0.01 + py * 0.01 =
        t + px * 0.01 + py * 0.01 + 2 * Real.pi by ring, Real.sin_add_two_pi]
  · unfold wave
    positivity
  · unfold wave
    have h0 : 0 ≤ rawWave t px py := by
      unfold rawWave
      have := Real.neg_one_le_sin (t + px * 0.01 + py * 0.01)
      linarith
    have h1 : rawWave t px py ≤ 1 := by
      unfold rawWave
      have := Real.sin_le_one (t + px * 0.01 + py * 0.01)
      linarith
    calc rawWave t px py ^ 4 ≤ 1 ^ 4 := pow_le_pow_left₀ h0 h1 4
    _ = 1 := one_pow 4

/-- Construct one cell during grid generation (`initializeGrid`, lines 75-105),
threading the random stream `g` from position `k` exactly as `Math.random()` is
called in the source: the hover draw, the oscillate draw, the static draw (only
when the oscillate draw failed, due to `&&` short-circuiting), the conditional
opacity draw, the rate draw and the direction draw.  `p` is `staticHexChance`.
Returns the cell and the next stream position. -/
def mkHexagon (g : ℕ → ℚ) (k : ℕ) (p : ℚ) (x y : ℝ) : Hexagon × ℕ :=
  let shouldHover := decide (g k < p)
  if g (k + 1) < 0.002 then
    ({ x := x, y := y, shouldHover := shouldHover, shouldOscillate := true, isStatic := false,
       opacity := 0.05 + g (k + 2) * 0.35,
       oscillationRate := 0.001 + g (k + 3) * 0.0012,
       oscillationDirection := if 0.5 < g (k + 4) then 1 else -1,
       hoverOpacity := 0, hoverTarget := 0, color := none }, k + 5)
  else if g (k + 2) < 0.002 then
    ({ x := x, y := y, shouldHover := shouldHover, shouldOscillate := false, isStatic := true,
       opacity := 0.05 + g (k + 3) * 0.35,
       oscillationRate := 0.001 + g (k + 4) * 0.0012,
       oscillationDirection := if 0.5 < g (k + 5) then 1 else -1,
       hoverOpacity := 0, hoverTarget := 0, color := none }, k + 6)
  else
    ({ x := x, y := y, shouldHover := shouldHover, shouldOscillate := false, isStatic := false,
       opacity := 0,
       oscillationRate := 0.001 + g (k + 3) * 0.0012,
       oscillationDirection := if 0.5 < g (k + 4) then 1 else -1,
       hoverOpacity := 0, hoverTarget := 0, color := none }, k + 5)

/-- The list `[lo, lo + 1, ..., lo + n - 1]` of the `n` integer loop indices
starting at `lo` (the source's `for` loops start at `-1`). -/
def intRange : ℤ → ℕ → List ℤ
  | _, 0 => []
  | lo, n + 1 => lo :: intRange (lo + 1) n

/-- Generate the cells of one row (`initializeGrid`, inner `col` loop): the
cell at `(col, row)` has world position
`x = col * hexWidth + (row % 2) * (hexWidth / 2)`, `y = row * verticalSpacing`,
where `%` is the JavaScript remainder (truncated toward zero). -/
noncomputable def genRowCells (g : ℕ → ℚ) (p : ℚ) (s : ℝ) (row : ℤ) :
    List ℤ → ℕ → List Hexagon × ℕ
  | [], k => ([], k)
  | col :: cs, k =>
      let x : ℝ := (col : ℝ) * hexWidth s + ((Int.tmod row 2 : ℤ) : ℝ) * (hexWidth s / 2)
      let y : ℝ := (row : ℝ) * verticalSpacing s
      let hk := mkHexagon g k p x y
      let rest := genRowCells g p s row cs hk.2
      (hk.1 :: rest.1, rest.2)

/-- Generate all rows of cells (`initializeGrid`, outer `row` loop). -/
noncomputable def genAllCells (g : ℕ → ℚ) (p : ℚ) (s : ℝ) :
    List ℤ → List ℤ → ℕ → List Hexagon × ℕ
  | [], _, k => ([], k)
  | row :: rs, cols, k =>
      let rk := genRowCells g p s row cols k
      let rest := genAllCells g p s rs cols rk.2
      (rk.1 ++ rest.1, rest.2)

/-- The in-place update the highlight pass applies to a chosen cell
(`initializeGrid`, lines 120-123 and 135-137): set its color, force it to
oscillate, and redraw its opacity in the oscillation band. -/
def colorUpdate (h : Hexagon) (c : HexColor) (op : ℚ) : Hexagon :=
  { h with color := some c, shouldOscillate := true, opacity := op }

/-- Apply `colorUpdate` to the cell at index `idx` of the list. -/
def applyColorAt (hs : List Hexagon) (idx : ℕ) (c : HexColor) (op : ℚ) : List Hexagon :=
  match hs[idx]? with
  | none => hs
  | some h => hs.set idx (colorUpdate h c op)

/-- The neighbor loop of one highlight-pass iteration (`initializeGrid`, lines
129-140): for `j = 0, 1, ...` try the index `idx + (j + 1) * (plus/minus 1)`,
coloring it when it is in range and not already colored.  `n` is the number of
remaining iterations, `colored` the used-index set, `k` the stream position. -/
def addNeighbors (g : ℕ → ℚ) (total : ℕ) (idx : ℤ) (c : HexColor) :
    ℕ → ℕ → ℕ → List Hexagon → List ℕ → List Hexagon × List ℕ × ℕ
  | 0, _, k, hs, colored => (hs, colored, k)
  | n + 1, j, k, hs, colored =>
      let off : ℤ := ((j : ℤ) + 1) * (if 0.5 < g k then 1 else -1)
      let nIdx : ℤ := idx + off
      if 0 ≤ nIdx ∧ nIdx < (total : ℤ) ∧ nIdx.toNat ∉ colored then
        addNeighbors g total idx c n (j + 1) (k + 2)
          (applyColorAt hs nIdx.toNat c (0.05 + g (k + 1) * 0.35)) (nIdx.toNat :: colored)
      else
        addNeighbors g total idx c n (j + 1) (k + 1) hs colored

/-- The highlight pass (`initializeGrid`, lines 109-141): `n` times, draw a
random index; skip it when already colored, otherwise color it red or green,
force it to oscillate, redraw its opacity, and try to color 1 or 2
index-adjacent neighbors the same way. -/
def colorPassIter (g : ℕ → ℚ) (total : ℕ) :
    ℕ → List Hexagon → List ℕ → ℕ → List Hexagon × List ℕ × ℕ
  | 0, hs, colored, k => (hs, colored, k)
  | n + 1, hs, colored, k =>
      let idx : ℕ := (⌊g k * (total : ℚ)⌋).toNat
      if idx ∈ colored then colorPassIter g total n hs colored (k + 1)
      else
        let c : HexColor := if 0.5 < g (k + 1) then .red else .green
        let hs1 := applyColorAt hs idx c (0.05 + g (k + 2) * 0.35)
        let nTo : ℕ := if 0.5 < g (k + 3) then 1 else 2
        let r := addNeighbors g total (idx : ℤ) c nTo 0 (k + 4) hs1 (idx :: colored)
        colorPassIter g total n r.1 r.2.1 r.2.2

/-- Number of grid columns (`initializeGrid`, line 69):
`Math.ceil(width / hexWidth) + 2`. -/
noncomputable def gridCols (width s : ℝ) : ℤ := ⌈width / hexWidth s⌉ + 2

/-- Number of grid rows (`initializeGrid`, line 70):
`Math.ceil(height / verticalSpacing) + 2`. -/
noncomputable def gridRows (height s : ℝ) : ℤ := ⌈height / verticalSpacing s⌉ + 2

/-- The full grid generation (`initializeGrid`, lines 63-143): generate the
cells for rows `-1` to `rows - 1` and columns `-1` to `cols - 1`, then run
the highlight pass over `floor(total * 0.01)` seeds. -/
noncomputable def initializeGrid (g : ℕ → ℚ) (hexSize : ℝ) (staticHexChance : ℚ)
    (width height : ℝ) : List Hexagon :=
  let base := genAllCells g staticHexChance hexSize
    (intRange (-1) (gridRows height hexSize + 1).toNat)
    (intRange (-1) (gridCols width hexSize + 1).toNat) 0
  let total := base.1.length
  (colorPassIter g total (⌊(total : ℚ) * 0.01⌋).toNat base.1 [] base.2).1

lemma intRange_length (lo : ℤ) (n : ℕ) : (intRange lo n).length = n := by
  induction n generalizing lo with
  | zero => rfl
  | succ m ih => simp [intRange, ih]

lemma genRowCells_fst_length (g : ℕ → ℚ) (p : ℚ) (s : ℝ) (row : ℤ)
    (cols : List ℤ) (k : ℕ) :
    (genRowCells g p s row cols k).1.length = cols.length := by
  induction cols generalizing k with
  | nil => rfl
  | cons c cs ih => simp [genRowCells, ih]

lemma genAllCells_fst_length (g : ℕ → ℚ) (p : ℚ) (s : ℝ)
    (rows cols : List ℤ) (k : ℕ) :
    (genAllCells g p s rows cols k).1.length = rows.length * cols.length := by
  induction rows generalizing k with
  | nil => simp [genAllCells]
  | cons r rs ih =>
      simp only [genAllCells, List.length_append, List.length_cons,
        genRowCells_fst_length, ih]
      ring

lemma applyColorAt_length (hs : List Hexagon) (idx : ℕ) (c : HexColor) (op : ℚ) :
    (applyColorAt hs idx c op).length = hs.length := by
  unfold applyColorAt
  cases h : hs[idx]? with
  | none => rfl
  | some hx => simp

lemma addNeighbors_fst_length (g : ℕ → ℚ) (total : ℕ) (idx : ℤ) (c : HexColor)
    (n j k : ℕ) (hs : List Hexagon) (colored : List ℕ) :
    (addNeighbors g total idx c n j k hs colored).1.length = hs.length := by
  induction n generalizing j k hs colored with
  | zero => rfl
  | succ m ih =>
      simp only [addNeighbors]
      split_ifs <;> simp [ih, applyColorAt_length]

lemma colorPassIter_fst_length (g : ℕ → ℚ) (total n : ℕ) (hs : List Hexagon)
    (colored : List ℕ) (k : ℕ) :
    (colorPassIter g total n hs colored k).1.length = hs.length := by
  induction n generalizing hs colored k with
  | zero => rfl
  | succ m ih =>
      simp only [colorPassIter]
      split_ifs <;> simp [ih, addNeighbors_fst_length, applyColorAt_length]

lemma initializeGrid_length (g : ℕ → ℚ) (s : ℝ) (p : ℚ) (W H : ℝ) :
    (initializeGrid g s p W H).length =
      (gridRows H s + 1).toNat * (gridCols W s + 1).toNat := by
  simp only [initializeGrid]
  rw [colorPassIter_fst_length, genAllCells_fst_length, intRange_length, intRange_length]

lemma verticalSpacing_30 : verticalSpacing 30 = 45 := by
  norm_num [verticalSpacing, hexHeight]

lemma hexHeight_30 : hexHeight 30 = 60 := by
  norm_num [hexHeight]

lemma ceil_300_div_hexWidth30 : ⌈(300 : ℝ) / hexWidth 30⌉ = 6 := by
  rw [Int.ceil_eq_iff]
  unfold hexWidth
  constructor
  · rw [show ((6 : ℤ) : ℝ) - 1 = 5 by norm_num, lt_div_iff (by positivity)]
    nlinarith [sqrt3_lt]
  · rw [div_le_iff (by positivity), show ((6 : ℤ) : ℝ) = 6 by norm_num]
    nlinarith [lt_sqrt3]

lemma ceil_300_div_verticalSpacing30 : ⌈(300 : ℝ) / verticalSpacing 30⌉ = 7 := by
  rw [verticalSpacing_30, Int.ceil_eq_iff]
  norm_num

/-- C5 counterexample: for the 300 by 300 viewport with cell size 30, the grid
has 90 cells, not the `(ceil(W/hexWidth)+2) * (ceil(H/verticalSpacing)+2)
= 8 * 9 = 72` of the claim: the loops run from `-1`, producing one more row
and one more column. -/
theorem grid_count_c5_counterexample :
    ((initializeGrid (fun _ => 0) 30 0.01 300 300).length : ℤ) ≠
      (⌈(300 : ℝ) / hexWidth 30⌉ + 2) * (⌈(300 : ℝ) / verticalSpacing 30⌉ + 2) := by
  rw [initializeGrid_length]
  unfold gridRows gridCols
  rw [ceil_300_div_hexWidth30, ceil_300_div_verticalSpacing30]
  norm_num

/-- C5 (amended): for every viewport with non-negative width and height and
every positive cell size, grid generation produces exactly
`(ceil(W/hexWidth) + 3) * (ceil(H/verticalSpacing) + 3)` cells — the claimed
columns and rows each increased by one, because the loops also run the `-1`
negative-margin index. -/
theorem grid_count_c5 (g : ℕ → ℚ) (p : ℚ) (s W H : ℝ)
    (hW : 0 ≤ W) (hH : 0 ≤ H) (hs : 0 < s) :
    ((initializeGrid g s p W H).length : ℤ) =
      (⌈W / hexWidth s⌉ + 3) * (⌈H / verticalSpacing s⌉ + 3) := by
  have hcw : (0 : ℤ) ≤ ⌈W / hexWidth s⌉ :=
    Int.ceil_nonneg (div_nonneg hW (le_of_lt (hexWidth_pos s hs)))
  have hcv : (0 : ℤ) ≤ ⌈H / verticalSpacing s⌉ := by
    refine Int.ceil_nonneg (div_nonneg hH ?_)
    unfold verticalSpacing hexHeight
    positivity
  rw [initializeGrid_length]
  unfold gridRows gridCols
  push_cast [Int.toNat_of_nonneg (by omega : (0:ℤ) ≤ ⌈W / hexWidth s⌉ + 2 + 1),
    Int.toNat_of_nonneg (by omega : (0:ℤ) ≤ ⌈H / verticalSpacing s⌉ + 2 + 1)]
  ring

/-- Concrete instance of `grid_count_c5` at the 300 by 300 viewport with cell
size 30: `(6+3) * (7+3) = 90` cells. -/
theorem grid_count_c5_witness :
    ((initializeGrid (fun _ => 1/2) 30 0.01 300 300).length : ℤ) =
      (⌈(300 : ℝ) / hexWidth 30⌉ + 3) * (⌈(300 : ℝ) / verticalSpacing 30⌉ + 3) :=
  grid_count_c5 (fun _ => 1/2) 0.01 30 300 300 (by norm_num) (by norm_num) (by norm_num)

/-- The part of the `p = 0` end-to-end scenario that the code actually
guarantees: the cell is not hover-enabled, and it is invisible (opacity `0`)
whenever it escaped the hard-coded oscillate draw, the static draw and the
highlight pass. -/
def HoverOffInert (hex : Hexagon) : Prop :=
  hex.shouldHover = false ∧
  (hex.shouldOscillate = false → hex.isStatic = false → hex.color = none →
    hex.opacity = 0)

lemma mkHexagon_hoverOffInert (g : ℕ → ℚ) (k : ℕ) (x y : ℝ) (hg : 0 ≤ g k) :
    HoverOffInert (mkHexagon g k 0 x y).1 := by
  unfold mkHexagon HoverOffInert
  have hh : decide (g k < 0) = false := decide_eq_false (not_lt.mpr hg)
  split_ifs with h1 h2 <;> simp [hh]

lemma colorUpdate_hoverOffInert (h : Hexagon) (c : HexColor) (op : ℚ)
    (hh : HoverOffInert h) : HoverOffInert (colorUpdate h c op) := by
  unfold colorUpdate HoverOffInert
  refine ⟨hh.1, ?_⟩
  intro habs
  simp at habs

lemma applyColorAt_hoverOffInert (hs : List Hexagon) (idx : ℕ) (c : HexColor) (op : ℚ)
    (hall : ∀ a ∈ hs, HoverOffInert a) :
    ∀ a ∈ applyColorAt hs idx c op, HoverOffInert a := by
  unfold applyColorAt
  cases hidx : hs[idx]? with
  | none => exact hall
  | some hx =>
      intro a ha
      rcases List.mem_or_eq_of_mem_set ha with h | h
      · exact hall a h
      · subst h
        exact colorUpdate_hoverOffInert hx c op (hall hx (List.getElem?_mem hidx))

lemma addNeighbors_hoverOffInert (g : ℕ → ℚ) (total : ℕ) (idx : ℤ) (c : HexColor)
    (n j k : ℕ) (hs : List Hexagon) (colored : List ℕ)
    (hall : ∀ a ∈ hs, HoverOffInert a) :
    ∀ a ∈ (addNeighbors g total idx c n j k hs colored).1, HoverOffInert a := by
  induction n generalizing j k hs colored with
  | zero => exact hall
  | succ m ih =>
      simp only [addNeighbors]
      split_ifs <;>
        first
          | exact ih _ _ _ _ (applyColorAt_hoverOffInert _ _ _ _ hall)
          | exact ih _ _ _ _ hall

lemma colorPassIter_hoverOffInert (g : ℕ → ℚ) (total n : ℕ) (hs : List Hexagon)
    (colored : List ℕ) (k : ℕ) (hall : ∀ a ∈ hs, HoverOffInert a) :
    ∀ a ∈ (colorPassIter g total n hs colored k).1, HoverOffInert a := by
  induction n generalizing hs colored k with
  | zero => exact hall
  | succ m ih =>
      simp only [colorPassIter]
      split_ifs <;>
        first
          | exact ih _ _ _ hall
          | exact ih _ _ _ (addNeighbors_hoverOffInert _ _ _ _ _ _ _ _ _
              (applyColorAt_hoverOffInert _ _ _ _ hall))

lemma genRowCells_hoverOffInert (g : ℕ → ℚ) (hg : ∀ n, 0 ≤ g n) (s : ℝ) (row : ℤ)
    (cols : List ℤ) (k : ℕ) :
    ∀ a ∈ (genRowCells g 0 s row cols k).1, HoverOffInert a := by
  induction cols generalizing k with
  | nil => intro a ha; simp [genRowCells] at ha
  | cons c cs ih =>
      intro a ha
      simp only [genRowCells] at ha
      rcases List.mem_cons.mp ha with h | h
      · subst h
        exact mkHexagon_hoverOffInert g k _ _ (hg k)
      · exact ih _ a h

lemma genAllCells_hoverOffInert (g : ℕ → ℚ) (hg : ∀ n, 0 ≤ g n) (s : ℝ)
    (rows cols : List ℤ) (k : ℕ) :
    ∀ a ∈ (genAllCells g 0 s rows cols k).1, HoverOffInert a := by
  induction rows generalizing k with
  | nil => intro a ha; simp [genAllCells] at ha
  | cons r rs ih =>
      intro a ha
      simp only [genAllCells] at ha
      rcases List.mem_append.mp ha with h | h
      · exact genRowCells_hoverOffInert g hg s r cols k a h
      · exact ih _ a h

/-- C2 counterexample cell: the first cell generated (row `-1`, column `-1`)
for the 300 by 300 viewport with cell size 30 and `staticHexChance = 0`, under
the random stream that always returns `0` — a legal `Math.random()` outcome. -/
noncomputable def c2BadCell : Hexagon :=
  (mkHexagon (fun _ => 0) 0 0
    (((-1 : ℤ) : ℝ) * hexWidth 30 + ((Int.tmod (-1) 2 : ℤ) : ℝ) * (hexWidth 30 / 2))
    (((-1 : ℤ) : ℝ) * verticalSpacing 30)).1

/-- C2 witness cell: the first cell generated for the same viewport under the
random stream that always returns `1/2`. -/
noncomputable def c2SampleCell : Hexagon :=
  (mkHexagon (fun _ => 1/2) 0 0
    (((-1 : ℤ) : ℝ) * hexWidth 30 + ((Int.tmod (-1) 2 : ℤ) : ℝ) * (hexWidth 30 / 2))
    (((-1 : ℤ) : ℝ) * verticalSpacing 30)).1

/-- For the 300 by 300 viewport with cell size 30 the highlight pass is a
no-op: `floor(90 * 0.01) = 0` seeds. -/
lemma initializeGrid_300_eq (g : ℕ → ℚ) (p : ℚ) :
    initializeGrid g 30 p 300 300 =
      (genAllCells g p 30 (intRange (-1) 10) (intRange (-1) 9) 0).1 := by
  have hr : (gridRows 300 30 + 1).toNat = 10 := by
    unfold gridRows
    rw [ceil_300_div_verticalSpacing30]
    rfl
  have hc : (gridCols 300 30 + 1).toNat = 9 := by
    unfold gridCols
    rw [ceil_300_div_hexWidth30]
    rfl
  have hlen : (genAllCells g p 30 (intRange (-1) 10) (intRange (-1) 9) 0).1.length = 90 := by
    rw [genAllCells_fst_length, intRange_length, intRange_length]
  have hfl : (⌊((90 : ℕ) : ℚ) * 0.01⌋).toNat = 0 := by
    rw [show ⌊((90 : ℕ) : ℚ) * 0.01⌋ = 0 by
      rw [Int.floor_eq_iff]
      norm_num]
    rfl
  simp only [initializeGrid, hr, hc, hlen, hfl]
  rfl

lemma c2BadCell_mem : c2BadCell ∈ initializeGrid (fun _ => 0) 30 0 300 300 := by
  rw [initializeGrid_300_eq]
  exact List.mem_append_left _ (List.mem_cons_self _ _)

lemma c2SampleCell_mem : c2SampleCell ∈ initializeGrid (fun _ => 1/2) 30 0 300 300 := by
  rw [initializeGrid_300_eq]
  exact List.mem_append_left _ (List.mem_cons_self _ _)

/-- C2 counterexample: with special-behavior probability `p = 0` on the 300 by
300 viewport with cell size 30, there is a random outcome (the stream that
always draws `0`) under which the grid contains a cell that oscillates and has
opacity `0.05`, not `0` — so not every cell is `Inert` for every outcome:
`p` only controls `shouldHover`; the oscillate and static draws compare
against the hard-coded `0.002`. -/
theorem grid_p0_c2_counterexample :
    c2BadCell ∈ initializeGrid (fun _ => 0) 30 0 300 300 ∧
    c2BadCell.shouldOscillate = true ∧ c2BadCell.opacity ≠ 0 := by
  refine ⟨c2BadCell_mem, ?_, ?_⟩
  · unfold c2BadCell mkHexagon
    rw [if_pos (by norm_num : (0 : ℚ) < 0.002)]
  · unfold c2BadCell mkHexagon
    rw [if_pos (by norm_num : (0 : ℚ) < 0.002)]
    norm_num

/-- C2 (amended): with special-behavior probability `p = 0`, for every outcome
of the random draws (every stream of values in `[0, 1)`), every generated cell
has `shouldHover = false`; and every cell that escaped the hard-coded
oscillate draw, static draw and highlight pass has opacity `0`.  (Cells may
still be `Oscillating`, `StaticLit` or colored: those draws do not depend on
`p`.) -/
theorem grid_p0_c2 (g : ℕ → ℚ) (hg : ∀ n, 0 ≤ g n) (s W H : ℝ) :
    ∀ hex ∈ initializeGrid g s 0 W H,
      hex.shouldHover = false ∧
      (hex.shouldOscillate = false → hex.isStatic = false → hex.color = none →
        hex.opacity = 0) := by
  intro hex hmem
  simp only [initializeGrid] at hmem
  exact colorPassIter_hoverOffInert _ _ _ _ _ _
    (genAllCells_hoverOffInert g hg s _ _ _) hex hmem

/-- Concrete instance of `grid_p0_c2` at the first generated cell of the
300 by 300 grid under the constant `1/2` random stream. -/
theorem grid_p0_c2_witness :
    c2SampleCell.shouldHover = false ∧
    (c2SampleCell.shouldOscillate = false → c2SampleCell.isStatic = false →
      c2SampleCell.color = none → c2SampleCell.opacity = 0) :=
  grid_p0_c2 (fun _ => 1/2) (fun _ => by norm_num) 30 300 300 c2SampleCell c2SampleCell_mem

/-- Re-roll a wrapped cell's behavior profile (`animate`, lines 304-319 and
323-338 — the two blocks are identical): redraw the oscillate flag, the static
flag (short-circuited when oscillating), the opacity, the rate, the direction
and the hover flag, and reset hover state and color.  The draw order follows
the source's `Math.random()` calls. -/
def rerollHexagon (g : ℕ → ℚ) (k : ℕ) (p : ℚ) (hex : Hexagon) : Hexagon × ℕ :=
  if g k < 0.002 then
    ({ hex with
        shouldOscillate := true
        isStatic := false
        opacity := 0.05 + g (k + 1) * 0.35
        oscillationRate := 0.001 + g (k + 2) * 0.0012
        oscillationDirection := if 0.5 < g (k + 3) then 1 else -1
        shouldHover := decide (g (k + 4) < p)
        hoverOpacity := 0
        hoverTarget := 0
        color := none }, k + 5)
  else if g (k + 1) < 0.002 then
    ({ hex with
        shouldOscillate := false
        isStatic := true
        opacity := 0.05 + g (k + 2) * 0.35
        oscillationRate := 0.001 + g (k + 3) * 0.0012
        oscillationDirection := if 0.5 < g (k + 4) then 1 else -1
        shouldHover := decide (g (k + 5) < p)
        hoverOpacity := 0
        hoverTarget := 0
        color := none }, k + 6)
  else
    ({ hex with
        shouldOscillate := false
        isStatic := false
        opacity := 0
        oscillationRate := 0.001 + g (k + 2) * 0.0012
        oscillationDirection := if 0.5 < g (k + 3) then 1 else -1
        shouldHover := decide (g (k + 4) < p)
        hoverOpacity := 0
        hoverTarget := 0
        color := none }, k + 5)

/-- The amount added to a cell's world x when it wraps (`animate`, line 303):
`hexWidth * (Math.ceil(width / hexWidth) + 4)`. -/
noncomputable def wrapSpanX (width s : ℝ) : ℝ :=
  hexWidth s * ((⌈width / hexWidth s⌉ + 4 : ℤ) : ℝ)

/-- The amount added to a cell's world y when it wraps (`animate`, line 322):
`verticalSpacing * (Math.ceil(height / verticalSpacing) + 4)`. -/
noncomputable def wrapSpanY (height s : ℝ) : ℝ :=
  verticalSpacing s * ((⌈height / verticalSpacing s⌉ + 4 : ℤ) : ℝ)

open Classical in
/-- One cell's recycle step (`animate`, lines 297-340): when the screen x is
below `-hexWidth * 3` the cell is moved right by `wrapSpanX` and re-rolled;
then, when the screen y (computed from the original position, which the x-wrap
does not change) is below `-hexHeight * 3`, it is moved down by `wrapSpanY`
and re-rolled again. -/
noncomputable def recyclePass (g : ℕ → ℚ) (k : ℕ) (p : ℚ)
    (width height s offx offy : ℝ) (hex : Hexagon) : Hexagon × ℕ :=
  let screenX := hex.x - offx
  let screenY := hex.y - offy
  let step1 : Hexagon × ℕ :=
    if screenX < -(hexWidth s) * 3 then
      rerollHexagon g k p { hex with x := hex.x + wrapSpanX width s }
    else (hex, k)
  if screenY < -(hexHeight s) * 3 then
    rerollHexagon g step1.2 p { step1.1 with y := step1.1.y + wrapSpanY height s }
  else step1

/-- Modelled from the spec: the `total width of the generated column tiling` —
the number of generated columns (`gridCols + 1`, the loop of `initializeGrid`
runs from `-1` to `gridCols - 1`) times the column spacing `hexWidth`. -/
noncomputable def specTilingSpanX (width s : ℝ) : ℝ :=
  ((gridCols width s + 1 : ℤ) : ℝ) * hexWidth s

lemma hex_set_x_x (h : Hexagon) (v : ℝ) : ({ h with x := v } : Hexagon).x = v := rfl

lemma hex_set_x_y (h : Hexagon) (v : ℝ) : ({ h with x := v } : Hexagon).y = h.y := rfl

lemma hex_set_y_x (h : Hexagon) (v : ℝ) : ({ h with y := v } : Hexagon).x = h.x := rfl

lemma hex_set_y_y (h : Hexagon) (v : ℝ) : ({ h with y := v } : Hexagon).y = v := rfl

lemma rerollHexagon_x (g : ℕ → ℚ) (k : ℕ) (p : ℚ) (hex : Hexagon) :
    (rerollHexagon g k p hex).1.x = hex.x := by
  unfold rerollHexagon
  split_ifs <;> rfl

lemma rerollHexagon_y (g : ℕ → ℚ) (k : ℕ) (p : ℚ) (hex : Hexagon) :
    (rerollHexagon g k p hex).1.y = hex.y := by
  unfold rerollHexagon
  split_ifs <;> rfl

lemma rerollHexagon_color (g : ℕ → ℚ) (k : ℕ) (p : ℚ) (hex : Hexagon) :
    (rerollHexagon g k p hex).1.color = none := by
  unfold rerollHexagon
  split_ifs <;> rfl

lemma rerollHexagon_hoverOpacity (g : ℕ → ℚ) (k : ℕ) (p : ℚ) (hex : Hexagon) :
    (rerollHexagon g k p hex).1.hoverOpacity = 0 := by
  unfold rerollHexagon
  split_ifs <;> rfl

lemma rerollHexagon_hoverTarget (g : ℕ → ℚ) (k : ℕ) (p : ℚ) (hex : Hexagon) :
    (rerollHexagon g k p hex).1.hoverTarget = 0 := by
  unfold rerollHexagon
  split_ifs <;> rfl

lemma recyclePass_id (g : ℕ → ℚ) (k : ℕ) (p : ℚ) (W H s offx offy : ℝ) (hex : Hexagon)
    (hx : ¬(hex.x - offx < -(hexWidth s) * 3))
    (hy : ¬(hex.y - offy < -(hexHeight s) * 3)) :
    recyclePass g k p W H s offx offy hex = (hex, k) := by
  simp only [recyclePass]
  rw [if_neg hx, if_neg hy]

/-- A concrete inert cell at the world origin, used to instantiate the
frame-step theorems. -/
noncomputable def originCell : Hexagon :=
  { x := 0, y := 0, shouldHover := false, shouldOscillate := false, isStatic := false,
    opacity := 0, oscillationRate := 0.001, oscillationDirection := 1,
    hoverOpacity := 0, hoverTarget := 0, color := none }

/-- C6 counterexample: a cell whose screen x has fallen below the wrap
threshold by more than one wrap span (world x `0`, pan offset
`13 * hexWidth + 1` for the 300-wide viewport, where the wrap span is
`10 * hexWidth`) still has screen x below the threshold after the frame's
recycle step — the step adds only one fixed span, so the claimed
`screen x >= threshold` does not hold for every cell below the threshold. -/
theorem recycle_wrap_c6_counterexample :
    originCell.x - (13 * hexWidth 30 + 1) < -(hexWidth 30) * 3 ∧
    (recyclePass (fun _ => 0) 0 0 300 300 30 (13 * hexWidth 30 + 1) 0 originCell).1.x -
      (13 * hexWidth 30 + 1) < -(hexWidth 30) * 3 := by
  have hw := hexWidth_pos 30 (by norm_num)
  have hx : originCell.x - (13 * hexWidth 30 + 1) < -(hexWidth 30) * 3 := by
    simp only [originCell]
    nlinarith
  refine ⟨hx, ?_⟩
  have hy : ¬(originCell.y - 0 < -(hexHeight 30) * 3) := by
    simp only [originCell]
    rw [hexHeight_30]
    norm_num
  simp only [recyclePass]
  rw [if_pos hx, if_neg hy, rerollHexagon_x]
  simp only [originCell]
  unfold wrapSpanX
  rw [ceil_300_div_hexWidth30]
  push_cast
  nlinarith

/-- C6 (amended): for every cell whose screen x fell below the wrap threshold
`-3 * hexWidth` by at most one wrap span `hexWidth * (ceil(W/hexWidth) + 4)`,
the frame's recycle step increases the world x by exactly that wrap span
(which is one column spacing `hexWidth` more than the total width of the
generated column tiling), and the resulting screen x is at least the
threshold. -/
theorem recycle_wrap_c6 (g : ℕ → ℚ) (k : ℕ) (p : ℚ) (W H s offx offy : ℝ)
    (hex : Hexagon) (hs : 0 < s)
    (ht : hex.x - offx < -(hexWidth s) * 3)
    (hb : -(hexWidth s) * 3 - wrapSpanX W s ≤ hex.x - offx) :
    (recyclePass g k p W H s offx offy hex).1.x = hex.x + wrapSpanX W s ∧
    -(hexWidth s) * 3 ≤ (recyclePass g k p W H s offx offy hex).1.x - offx ∧
    wrapSpanX W s = specTilingSpanX W s + hexWidth s := by
  have hxval : (recyclePass g k p W H s offx offy hex).1.x = hex.x + wrapSpanX W s := by
    simp only [recyclePass]
    rw [if_pos ht]
    by_cases hy : hex.y - offy < -(hexHeight s) * 3
    · rw [if_pos hy, rerollHexagon_x, hex_set_y_x, rerollHexagon_x, hex_set_x_x]
    · rw [if_neg hy, rerollHexagon_x, hex_set_x_x]
  refine ⟨hxval, ?_, ?_⟩
  · rw [hxval]
    linarith
  · unfold wrapSpanX specTilingSpanX gridCols
    push_cast
    ring

/-- Concrete instance of `recycle_wrap_c6`: the origin cell with pan offset
`4 * hexWidth` on the 300 by 300 viewport with cell size 30. -/
theorem recycle_wrap_c6_witness :
    (recyclePass (fun _ => 0) 0 0 300 300 30 (4 * hexWidth 30) 0 originCell).1.x =
      originCell.x + wrapSpanX 300 30 ∧
    -(hexWidth 30) * 3 ≤
      (recyclePass (fun _ => 0) 0 0 300 300 30 (4 * hexWidth 30) 0 originCell).1.x -
        4 * hexWidth 30 ∧
    wrapSpanX 300 30 = specTilingSpanX 300 30 + hexWidth 30 :=
  recycle_wrap_c6 (fun _ => 0) 0 0 300 300 30 (4 * hexWidth 30) 0 originCell
    (by norm_num)
    (by
      have hw := hexWidth_pos 30 (by norm_num)
      simp only [originCell]
      nlinarith)
    (by
      have hw := hexWidth_pos 30 (by norm_num)
      simp only [originCell]
      unfold wrapSpanX
      rw [ceil_300_div_hexWidth30]
      push_cast
      nlinarith)

/-- C10: every cell recycled by the wrap-around step (on either axis) comes
out with no highlight color, hover opacity `0` and hover target `0`; and the
coordinate of the axis that did not trigger the wrap is unchanged.  Hence no
recycled cell carries a highlight-group color: colored clusters are only
created by full grid generation. -/
theorem recycle_reroll_c10 (g : ℕ → ℚ) (k : ℕ) (p : ℚ) (W H s offx offy : ℝ)
    (hex : Hexagon)
    (h : hex.x - offx < -(hexWidth s) * 3 ∨ hex.y - offy < -(hexHeight s) * 3) :
    ((recyclePass g k p W H s offx offy hex).1.color = none ∧
     (recyclePass g k p W H s offx offy hex).1.hoverOpacity = 0 ∧
     (recyclePass g k p W H s offx offy hex).1.hoverTarget = 0) ∧
    (hex.x - offx < -(hexWidth s) * 3 → ¬(hex.y - offy < -(hexHeight s) * 3) →
      (recyclePass g k p W H s offx offy hex).1.y = hex.y) ∧
    (hex.y - offy < -(hexHeight s) * 3 → ¬(hex.x - offx < -(hexWidth s) * 3) →
      (recyclePass g k p W H s offx offy hex).1.x = hex.x) := by
  by_cases hx : hex.x - offx < -(hexWidth s) * 3 <;>
    by_cases hy : hex.y - offy < -(hexHeight s) * 3
  · simp only [recyclePass]
    rw [if_pos hx, if_pos hy]
    exact ⟨⟨rerollHexagon_color _ _ _ _, rerollHexagon_hoverOpacity _ _ _ _,
      rerollHexagon_hoverTarget _ _ _ _⟩,
      fun _ hny => absurd hy hny, fun _ hnx => absurd hx hnx⟩
  · simp only [recyclePass]
    rw [if_pos hx, if_neg hy]
    refine ⟨⟨rerollHexagon_color _ _ _ _, rerollHexagon_hoverOpacity _ _ _ _,
      rerollHexagon_hoverTarget _ _ _ _⟩, fun _ _ => ?_, fun hy2 _ => absurd hy2 hy⟩
    rw [rerollHexagon_y, hex_set_x_y]
  · simp only [recyclePass]
    rw [if_neg hx, if_pos hy]
    refine ⟨⟨rerollHexagon_color _ _ _ _, rerollHexagon_hoverOpacity _ _ _ _,
      rerollHexagon_hoverTarget _ _ _ _⟩, fun hx2 _ => absurd hx2 hx, fun _ _ => ?_⟩
    rw [rerollHexagon_x, hex_set_y_x]
  · exact absurd h (not_or.mpr ⟨hx, hy⟩)

/-- Concrete instance of `recycle_reroll_c10`: the origin cell wrapped on the
x axis only (pan offset `4 * hexWidth`). -/
theorem recycle_reroll_c10_witness :
    ((recyclePass (fun _ => 0) 0 0 300 300 30 (4 * hexWidth 30) 0 originCell).1.color = none ∧
     (recyclePass (fun _ => 0) 0 0 300 300 30 (4 * hexWidth 30) 0 originCell).1.hoverOpacity = 0 ∧
     (recyclePass (fun _ => 0) 0 0 300 300 30 (4 * hexWidth 30) 0 originCell).1.hoverTarget = 0) ∧
    (originCell.x - 4 * hexWidth 30 < -(hexWidth 30) * 3 →
      ¬(originCell.y - 0 < -(hexHeight 30) * 3) →
      (recyclePass (fun _ => 0) 0 0 300 300 30 (4 * hexWidth 30) 0 originCell).1.y =
        originCell.y) ∧
    (originCell.y - 0 < -(hexHeight 30) * 3 →
      ¬(originCell.x - 4 * hexWidth 30 < -(hexWidth 30) * 3) →
      (recyclePass (fun _ => 0) 0 0 300 300 30 (4 * hexWidth 30) 0 originCell).1.x =
        originCell.x) :=
  recycle_reroll_c10 (fun _ => 0) 0 0 300 300 30 (4 * hexWidth 30) 0 originCell
    (Or.inl (by
      have hw := hexWidth_pos 30 (by norm_num)
      simp only [originCell]
      nlinarith))

/-- The six vertices of a hexagon (`getHexagonVertices`, lines 50-60):
vertex `i` is at angle `pi/3 * i - pi/6` from the center. -/
noncomputable def getHexagonVertices (cx cy size : ℝ) : List (ℝ × ℝ) :=
  (List.range 6).map fun i =>
    (cx + size * Real.cos (Real.pi / 3 * (i : ℝ) - Real.pi / 6),
     cy + size * Real.sin (Real.pi / 3 * (i : ℝ) - Real.pi / 6))

/-- One recorded draw call of a frame: a vertex star (`drawStar`) or a hexagon
fill (`drawHexagon`). -/
inductive DrawCall
  | star (x y size brightness : ℝ)
  | hexFill (x y size : ℝ) (opacity : ℚ) (color : Option HexColor)

/-- The six star draw calls of one drawn cell (`animate`, lines 357-365, and
`drawStar`, line 199): each vertex is displaced by `-(wave - 0.5) * 12` and
drawn with size `1.5` and brightness `0.06 + wave * 0.2`. -/
noncomputable def starCalls (waveTime screenX screenY s : ℝ) : List DrawCall :=
  (getHexagonVertices screenX screenY s).map fun v =>
    DrawCall.star v.1 (v.2 + -(wave waveTime v.1 v.2 - 0.5) * 12) 1.5
      (0.06 + wave waveTime v.1 v.2 * 0.2)

/-- The hexagon fill draw (`drawHexagon`, line 156): nothing is drawn when the
opacity is at most `0.01`. -/
def hexFillCalls (screenX screenY s : ℝ) (op : ℚ) (c : Option HexColor) : List DrawCall :=
  if op ≤ 0.01 then [] else [DrawCall.hexFill screenX screenY s op c]

open Classical in
/-- One cell's draw-and-update step (`animate`, lines 343-399): when the screen
position is outside the one-cell margin the cell is skipped entirely —
no draws, no state change.  Otherwise the stars are drawn, the oscillation and
hover axes are updated, and the hexagon is filled with
`max(opacity, hoverOpacity)`. -/
noncomputable def drawPass (mx my width height s : ℝ) (hoverDelay dt : ℚ)
    (waveTime offx offy : ℝ) (hex : Hexagon) : Hexagon × List DrawCall :=
  let screenX := hex.x - offx
  let screenY := hex.y - offy
  if screenX < -(hexWidth s) ∨ screenX > width + hexWidth s ∨
      screenY < -(hexHeight s) ∨ screenY > height + hexHeight s then
    (hex, [])
  else
    let osc := if hex.shouldOscillate then
        oscStep hex.oscillationRate hex.oscillationDirection dt hex.opacity
      else (hex.opacity, hex.oscillationDirection)
    let hov := if hex.shouldHover then
        hoverUpdate hoverDelay dt (isPointInHexagon mx my screenX screenY s) hex.hoverOpacity
      else (hex.hoverTarget, hex.hoverOpacity)
    ({ hex with
        opacity := osc.1
        oscillationDirection := osc.2
        hoverTarget := hov.1
        hoverOpacity := hov.2 },
     starCalls waveTime screenX screenY s ++
       hexFillCalls screenX screenY s (max osc.1 hov.2) hex.color)

/-- One cell's full frame (`animate`): the recycle pass (lines 297-340)
followed by the draw-and-update pass (lines 343-399), both against the frame's
pan offset.  Returns the final cell, the frame's draw calls for it, and the
next random-stream position. -/
noncomputable def frameCellStep (g : ℕ → ℚ) (k : ℕ) (p : ℚ)
    (mx my width height s : ℝ) (hoverDelay dt : ℚ) (waveTime offx offy : ℝ)
    (hex : Hexagon) : Hexagon × List DrawCall × ℕ :=
  let r := recyclePass g k p width height s offx offy hex
  let d := drawPass mx my width height s hoverDelay dt waveTime offx offy r.1
  (d.1, d.2, r.2)

/-- C9: a cell whose screen position (after the frame's recycle pass) lies
outside the one-cell draw margin gets no draw calls this frame and its state —
opacity, oscillation direction, hover opacity and hover target included — is
exactly what the recycle pass left: only the recycle check can modify such a
cell. -/
theorem offscreen_skip_c9 (g : ℕ → ℚ) (k : ℕ) (p : ℚ)
    (mx my W H s : ℝ) (hoverDelay dt : ℚ) (waveTime offx offy : ℝ) (hex : Hexagon)
    (h : (recyclePass g k p W H s offx offy hex).1.x - offx < -(hexWidth s) ∨
         (recyclePass g k p W H s offx offy hex).1.x - offx > W + hexWidth s ∨
         (recyclePass g k p W H s offx offy hex).1.y - offy < -(hexHeight s) ∨
         (recyclePass g k p W H s offx offy hex).1.y - offy > H + hexHeight s) :
    (frameCellStep g k p mx my W H s hoverDelay dt waveTime offx offy hex).1 =
      (recyclePass g k p W H s offx offy hex).1 ∧
    (frameCellStep g k p mx my W H s hoverDelay dt waveTime offx offy hex).2.1 = [] := by
  simp only [frameCellStep, drawPass]
  rw [if_pos h]
  exact ⟨rfl, rfl⟩

/-- Concrete instance of `offscreen_skip_c9`: the origin cell with pan offset
`2 * hexWidth` — between the draw margin `-hexWidth` and the recycle threshold
`-3 * hexWidth`, so the recycle pass leaves it alone and the draw pass skips
it. -/
theorem offscreen_skip_c9_witness :
    (frameCellStep (fun _ => 0) 0 0.01 0 0 300 300 30 0.3 (1/60) 0
        (2 * hexWidth 30) 0 originCell).1 =
      (recyclePass (fun _ => 0) 0 0.01 300 300 30 (2 * hexWidth 30) 0 originCell).1 ∧
    (frameCellStep (fun _ => 0) 0 0.01 0 0 300 300 30 0.3 (1/60) 0
        (2 * hexWidth 30) 0 originCell).2.1 = [] :=
  offscreen_skip_c9 (fun _ => 0) 0 0.01 0 0 300 300 30 0.3 (1/60) 0
    (2 * hexWidth 30) 0 originCell
    (by
      have hw := hexWidth_pos 30 (by norm_num)
      have hx3 : ¬(originCell.x - 2 * hexWidth 30 < -(hexWidth 30) * 3) := by
        simp only [originCell]
        push_neg
        nlinarith
      have hy3 : ¬(originCell.y - 0 < -(hexHeight 30) * 3) := by
        simp only [originCell]
        rw [hexHeight_30]
        norm_num
      rw [recyclePass_id _ _ _ _ _ _ _ _ _ hx3 hy3]
      left
      show originCell.x - 2 * hexWidth 30 < -(hexWidth 30)
      simp only [originCell]
      nlinarith)

end HexagonGrid
